import Mathlib

/-!
# Design Gym — verification of the quiz session engine and leaderboard API

Shallow embedding of the "Design Gym" quiz application:

* the question catalog data model and the session selector
  (`getRandomizedQuestions` with `validateQuestions` / `validatePoolComposition`),
* the Fisher–Yates shuffle helper (`shuffleArray`), modelled with an explicit
  random source `rnd : Nat → Nat` standing for the stream of values
  `Math.floor(Math.random() * (i + 1))` (we take `rnd i % (i + 1)` so that any
  mathematically possible draw in `[0, i]` is covered),
* the per-question option randomizer (`shuffleOptions`),
* the React component's session state machine (`handleSelect`, `handleNext`,
  `handleProceedToNextLevel`, `handleStartOver`) as pure state transitions,
* the accuracy computation shown at session completion,
* the leaderboard API handlers: the file-backed one (`pages/api/leaderboard.ts`)
  and the database-backed one, including POST validation and the ranking
  order used by GET (`sortEntries` / `ORDER BY score DESC, accuracy DESC,
  time_taken ASC`).
-/

namespace DesignGym

/-- Difficulty tier of a question: `'beginner' | 'mid' | 'expert'`. -/
inductive Difficulty where
  | beginner
  | mid
  | expert
  deriving DecidableEq, Repr

/-- Content type of a question: `'image' | 'typeface'`. -/
inductive QType where
  | image
  | typeface
  deriving DecidableEq, Repr

/-- A catalog question.  The `difficulty` field is an `Option` because the
source validates at runtime (`validateQuestions`) that no question has a
missing/falsy difficulty tag. -/
structure Question where
  id : Nat
  difficulty : Option Difficulty
  type : QType
  prompt : String
  optionA : String
  optionB : String
  explanation : String
  deriving DecidableEq, Repr

/-- `QUESTIONS_PER_LEVEL`: how many questions are sampled per tier. -/
def QUESTIONS_PER_LEVEL : Difficulty → Nat
  | .beginner => 5
  | .mid => 7
  | .expert => 8

/-- Required image/typeface split of each tier's pool. -/
structure PoolComposition where
  image : Nat
  typeface : Nat
  deriving DecidableEq, Repr

/-- `REQUIRED_POOL_COMPOSITION`: exact pool split each tier must have. -/
def REQUIRED_POOL_COMPOSITION : Difficulty → PoolComposition
  | .beginner => { image := 15, typeface := 5 }
  | .mid => { image := 12, typeface := 8 }
  | .expert => { image := 13, typeface := 7 }

/-- One step of the Fisher–Yates loop body:
`[shuffled[i], shuffled[j]] = [shuffled[j], shuffled[i]]`.
Out-of-range indices leave the list unchanged (never hit by the caller). -/
def listSwap (xs : List α) (i j : Nat) : List α :=
  match xs[i]?, xs[j]? with
  | some a, some b => (xs.set i b).set j a
  | _, _ => xs

/-- The Fisher–Yates loop `for (let i = n - 1; i > 0; i--)`, counting the
index `i` down to `1`; at each `i` the swap partner is
`j = Math.floor(Math.random() * (i + 1))`, modelled as `rnd i % (i + 1)`. -/
def shuffleLoop (rnd : Nat → Nat) : List α → Nat → List α
  | xs, 0 => xs
  | xs, i + 1 => shuffleLoop rnd (listSwap xs (i + 1) (rnd (i + 1) % (i + 2))) i

/-- `shuffleArray`: copies the input (`[...array]`) and runs the
Fisher–Yates loop from `length - 1` down to `1`.  The copy is implicit in
the pure model: the input list is a value and cannot be mutated. -/
def shuffleArray (rnd : Nat → Nat) (array : List α) : List α :=
  shuffleLoop rnd array (array.length - 1)

/-- Replacing the head of a `cons` with the `k`-th element of the tail (and
writing `x` at position `k`) permutes `x :: t`. -/
theorem cons_set_perm (x : α) :
    ∀ (t : List α) (k : Nat) (b : α), t[k]? = some b →
      List.Perm (b :: t.set k x) (x :: t) := by
  intro t
  induction t with
  | nil => intro k b h; simp at h
  | cons c t' ih =>
    intro k b h
    cases k with
    | zero =>
      rw [List.getElem?_cons_zero] at h
      injection h with h
      subst h
      rw [List.set_cons_zero]
      exact List.Perm.swap x c t'
    | succ k' =>
      rw [List.getElem?_cons_succ] at h
      rw [List.set_cons_succ]
      exact ((List.Perm.swap c b _).trans (List.Perm.cons c (ih k' b h))).trans
        (List.Perm.swap x c t')

/-- `listSwap` returns a permutation of its input. -/
theorem listSwap_perm : ∀ (xs : List α) (i j : Nat), List.Perm (listSwap xs i j) xs := by
  intro xs
  induction xs with
  | nil => intro i j; cases i <;> cases j <;> exact List.Perm.refl _
  | cons x t ih =>
    intro i j
    cases i with
    | zero =>
      cases j with
      | zero =>
        simp only [listSwap, List.getElem?_cons_zero, List.set_cons_zero]
        exact List.Perm.refl _
      | succ k =>
        cases hk : t[k]? with
        | none => simp [listSwap, hk]
        | some b =>
          simp only [listSwap, List.getElem?_cons_zero, List.getElem?_cons_succ, hk,
            List.set_cons_zero, List.set_cons_succ]
          exact cons_set_perm x t k b hk
    | succ m =>
      cases j with
      | zero =>
        cases hm : t[m]? with
        | none => simp [listSwap, hm]
        | some a =>
          simp only [listSwap, List.getElem?_cons_zero, List.getElem?_cons_succ, hm,
            List.set_cons_zero, List.set_cons_succ]
          exact cons_set_perm x t m a hm
      | succ k =>
        cases hm : t[m]? with
        | none => simp [listSwap, hm]
        | some a =>
          cases hk : t[k]? with
          | none => simp [listSwap, hm, hk]
          | some b =>
            simp only [listSwap, List.getElem?_cons_succ, hm, hk, List.set_cons_succ]
            have h2 := ih m k
            simp only [listSwap, hm, hk] at h2
            exact List.Perm.cons x h2

/-- The whole Fisher–Yates loop returns a permutation of its input. -/
theorem shuffleLoop_perm (rnd : Nat → Nat) :
    ∀ (i : Nat) (xs : List α), List.Perm (shuffleLoop rnd xs i) xs := by
  intro i
  induction i with
  | zero => intro xs; exact List.Perm.refl _
  | succ i ih =>
    intro xs
    exact (ih _).trans (listSwap_perm xs (i + 1) (rnd (i + 1) % (i + 2)))

/-- `shuffleArray` returns a permutation of its input. -/
theorem shuffleArray_perm (rnd : Nat → Nat) (xs : List α) :
    List.Perm (shuffleArray rnd xs) xs :=
  shuffleLoop_perm rnd (xs.length - 1) xs

theorem shuffleArray_length (rnd : Nat → Nat) (xs : List α) :
    (shuffleArray rnd xs).length = xs.length :=
  (shuffleArray_perm rnd xs).length_eq

theorem shuffleArray_mem {rnd : Nat → Nat} {xs : List α} {a : α} :
    a ∈ shuffleArray rnd xs ↔ a ∈ xs :=
  (shuffleArray_perm rnd xs).mem_iff

theorem shuffleArray_nodup {rnd : Nat → Nat} {xs : List α} (h : xs.Nodup) :
    (shuffleArray rnd xs).Nodup :=
  ((shuffleArray_perm rnd xs).nodup_iff).mpr h

/-! ## Session Selector -/

/-- `validateQuestions`: fatal error when any question has a missing (falsy)
difficulty field. -/
def validateQuestions (questions : List Question) : Except String Unit :=
  let missingDifficulty := questions.filter (fun q => q.difficulty.isNone)
  if missingDifficulty.length > 0 then
    Except.error "CRITICAL: question(s) are missing explicit difficulty field"
  else
    Except.ok ()

/-- `validatePoolComposition`: fatal error unless the tier's pool splits into
exactly the required image/typeface counts. -/
def validatePoolComposition (difficulty : Difficulty)
    (imageQuestions typefaceQuestions : List Question) : Except String Unit :=
  let required := REQUIRED_POOL_COMPOSITION difficulty
  let actualImage := imageQuestions.length
  let actualTypeface := typefaceQuestions.length
  if actualImage != required.image || actualTypeface != required.typeface then
    Except.error "CRITICAL: difficulty pool does not meet required composition"
  else
    Except.ok ()

/-- STEP 1 of the per-level loop: filter the catalog by the explicit
difficulty field only.  (The throw inside the source's filter callback for a
missing difficulty can never fire after `validateQuestions` has succeeded; the
up-front validation errors under exactly the same condition.) -/
def tierPool (questions : List Question) (level : Difficulty) : List Question :=
  questions.filter (fun q => q.difficulty == some level)

/-- Body of the `for (const level of ['beginner', 'mid', 'expert'])` loop in
`getRandomizedQuestions` (steps 1–5).  The three `shuffleArray` calls
performed for this level draw from the random sources `r base`,
`r (base + 1)` and `r (base + 2)`. -/
def selectForLevel (r : Nat → Nat → Nat) (base : Nat) (questions : List Question)
    (level : Difficulty) : Except String (List Question) :=
  let levelQuestions := tierPool questions level
  let imageQuestions := levelQuestions.filter (fun q => q.type == QType.image)
  let typefaceQuestions := levelQuestions.filter (fun q => q.type == QType.typeface)
  match validatePoolComposition level imageQuestions typefaceQuestions with
  | Except.error e => Except.error e
  | Except.ok _ =>
    let shuffledImage := shuffleArray (r base) imageQuestions
    let shuffledTypeface := shuffleArray (r (base + 1)) typefaceQuestions
    let allShuffled := shuffleArray (r (base + 2)) (shuffledImage ++ shuffledTypeface)
    let count := QUESTIONS_PER_LEVEL level
    if allShuffled.length < count then
      Except.error "CRITICAL: difficulty pool has too few questions for selection"
    else
      Except.ok (allShuffled.take count)

/-- `getRandomizedQuestions`: validate, then process the three levels in fixed
order and concatenate the selections (the source's loop, unrolled). -/
def getRandomizedQuestions (r : Nat → Nat → Nat) (questions : List Question) :
    Except String (List Question) :=
  match validateQuestions questions with
  | Except.error e => Except.error e
  | Except.ok _ =>
    match selectForLevel r 0 questions Difficulty.beginner with
    | Except.error e => Except.error e
    | Except.ok beginnerSelected =>
      match selectForLevel r 3 questions Difficulty.mid with
      | Except.error e => Except.error e
      | Except.ok midSelected =>
        match selectForLevel r 6 questions Difficulty.expert with
        | Except.error e => Except.error e
        | Except.ok expertSelected =>
          Except.ok (beginnerSelected ++ midSelected ++ expertSelected)

/-- A tier's filtered pool splits into exactly the required composition. -/
def compositionMatches (questions : List Question) (level : Difficulty) : Prop :=
  ((tierPool questions level).filter (fun q => q.type == QType.image)).length
      = (REQUIRED_POOL_COMPOSITION level).image ∧
  ((tierPool questions level).filter (fun q => q.type == QType.typeface)).length
      = (REQUIRED_POOL_COMPOSITION level).typeface

instance (questions : List Question) (level : Difficulty) :
    Decidable (compositionMatches questions level) := by
  unfold compositionMatches
  exact inferInstance

/-- The pool-composition precondition for the whole catalog. -/
def poolCompositionOK (questions : List Question) : Prop :=
  compositionMatches questions Difficulty.beginner ∧
  compositionMatches questions Difficulty.mid ∧
  compositionMatches questions Difficulty.expert

instance (questions : List Question) : Decidable (poolCompositionOK questions) := by
  unfold poolCompositionOK
  exact inferInstance

theorem poolCompositionOK_level {questions : List Question}
    (h : poolCompositionOK questions) (level : Difficulty) :
    compositionMatches questions level := by
  cases level
  · exact h.1
  · exact h.2.1
  · exact h.2.2

theorem validatePoolComposition_ok_iff (difficulty : Difficulty)
    (imageQuestions typefaceQuestions : List Question) :
    validatePoolComposition difficulty imageQuestions typefaceQuestions = Except.ok () ↔
      (imageQuestions.length = (REQUIRED_POOL_COMPOSITION difficulty).image ∧
       typefaceQuestions.length = (REQUIRED_POOL_COMPOSITION difficulty).typeface) := by
  unfold validatePoolComposition
  by_cases h1 : imageQuestions.length = (REQUIRED_POOL_COMPOSITION difficulty).image <;>
    by_cases h2 : typefaceQuestions.length = (REQUIRED_POOL_COMPOSITION difficulty).typeface <;>
      simp [h1, h2]

/-- What a successful per-level selection guarantees. -/
theorem selectForLevel_ok (r : Nat → Nat → Nat) (base : Nat)
    (questions : List Question) (level : Difficulty) (sel : List Question)
    (h : selectForLevel r base questions level = Except.ok sel) :
    sel.length = QUESTIONS_PER_LEVEL level ∧
    compositionMatches questions level ∧
    ∀ q ∈ sel, q ∈ tierPool questions level := by
  simp only [selectForLevel] at h
  cases hv : validatePoolComposition level
      ((tierPool questions level).filter (fun q => q.type == QType.image))
      ((tierPool questions level).filter (fun q => q.type == QType.typeface)) with
  | error e => rw [hv] at h; cases h
  | ok u =>
    cases u
    rw [hv] at h
    have hcomp : compositionMatches questions level :=
      (validatePoolComposition_ok_iff level _ _).mp hv
    set imageQuestions :=
      (tierPool questions level).filter (fun q => q.type == QType.image) with himg
    set typefaceQuestions :=
      (tierPool questions level).filter (fun q => q.type == QType.typeface) with htf
    set allShuffled := shuffleArray (r (base + 2))
      (shuffleArray (r base) imageQuestions ++
        shuffleArray (r (base + 1)) typefaceQuestions) with hall
    by_cases hlen : allShuffled.length < QUESTIONS_PER_LEVEL level
    · rw [if_pos hlen] at h; cases h
    · rw [if_neg hlen] at h
      have hsel : sel = allShuffled.take (QUESTIONS_PER_LEVEL level) := by
        cases h; rfl
      refine ⟨?_, hcomp, ?_⟩
      · rw [hsel, List.length_take]
        omega
      · intro q hq
        rw [hsel] at hq
        have hq1 : q ∈ allShuffled := List.take_subset _ _ hq
        have hq2 : q ∈ shuffleArray (r base) imageQuestions ++
            shuffleArray (r (base + 1)) typefaceQuestions :=
          shuffleArray_mem.mp hq1
        rcases List.mem_append.mp hq2 with hq3 | hq3
        · exact (List.mem_filter.mp (shuffleArray_mem.mp hq3)).1
        · exact (List.mem_filter.mp (shuffleArray_mem.mp hq3)).1

/-- A successful per-level selection also pins every selected question's
difficulty tag to the level and keeps it inside the catalog. -/
theorem mem_tierPool {questions : List Question} {level : Difficulty} {q : Question}
    (h : q ∈ tierPool questions level) :
    q ∈ questions ∧ q.difficulty = some level := by
  have := List.mem_filter.mp h
  refine ⟨this.1, ?_⟩
  have := this.2
  simpa using this

/-- Decompose a successful session construction into its three per-level
selections, concatenated in the fixed order beginner, mid, expert. -/
theorem getRandomizedQuestions_ok_decomp (r : Nat → Nat → Nat)
    (questions l : List Question)
    (h : getRandomizedQuestions r questions = Except.ok l) :
    ∃ bs ms es, l = bs ++ ms ++ es ∧
      selectForLevel r 0 questions Difficulty.beginner = Except.ok bs ∧
      selectForLevel r 3 questions Difficulty.mid = Except.ok ms ∧
      selectForLevel r 6 questions Difficulty.expert = Except.ok es := by
  unfold getRandomizedQuestions at h
  cases h0 : validateQuestions questions with
  | error e => rw [h0] at h; cases h
  | ok u =>
    cases u
    rw [h0] at h
    cases hb : selectForLevel r 0 questions Difficulty.beginner with
    | error e => rw [hb] at h; cases h
    | ok bs =>
      rw [hb] at h
      cases hm : selectForLevel r 3 questions Difficulty.mid with
      | error e => rw [hm] at h; cases h
      | ok ms =>
        rw [hm] at h
        cases he : selectForLevel r 6 questions Difficulty.expert with
        | error e => rw [he] at h; cases h
        | ok es =>
          rw [he] at h
          refine ⟨bs, ms, es, ?_, rfl, rfl, rfl⟩
          cases h
          rfl

/-- Rank of a difficulty tag; used to state "tier order is non-decreasing". -/
def difficultyRank : Option Difficulty → Nat
  | some Difficulty.beginner => 0
  | some Difficulty.mid => 1
  | some Difficulty.expert => 2
  | none => 3

/-- Everything in a tier's pool has that tier's rank. -/
theorem rank_of_mem_tierPool {questions : List Question} {level : Difficulty}
    {q : Question} (h : q ∈ tierPool questions level) :
    difficultyRank q.difficulty = difficultyRank (some level) := by
  rw [(mem_tierPool h).2]

/-- C1: a session built from a catalog meeting the pool-composition
precondition has length `5 + 7 + 8 = 20`, is a beginner block followed by a
mid block followed by an expert block (difficulty rank non-decreasing), and
every element is drawn from its tier's subset of the catalog. -/
theorem C1_session_shape (r : Nat → Nat → Nat) (questions l : List Question)
    (_hpool : poolCompositionOK questions)
    (h : getRandomizedQuestions r questions = Except.ok l) :
    l.length = QUESTIONS_PER_LEVEL Difficulty.beginner +
      QUESTIONS_PER_LEVEL Difficulty.mid + QUESTIONS_PER_LEVEL Difficulty.expert ∧
    l.length = 20 ∧
    List.Sorted (fun a b => difficultyRank a.difficulty ≤ difficultyRank b.difficulty) l ∧
    ∃ bs ms es, l = bs ++ ms ++ es ∧
      bs.length = 5 ∧ ms.length = 7 ∧ es.length = 8 ∧
      (∀ q ∈ bs, q ∈ tierPool questions Difficulty.beginner) ∧
      (∀ q ∈ ms, q ∈ tierPool questions Difficulty.mid) ∧
      (∀ q ∈ es, q ∈ tierPool questions Difficulty.expert) := by
  obtain ⟨bs, ms, es, hl, hb, hm, he⟩ := getRandomizedQuestions_ok_decomp r questions l h
  obtain ⟨hblen, _, hbmem⟩ := selectForLevel_ok r 0 questions Difficulty.beginner bs hb
  obtain ⟨hmlen, _, hmmem⟩ := selectForLevel_ok r 3 questions Difficulty.mid ms hm
  obtain ⟨helen, _, hemem⟩ := selectForLevel_ok r 6 questions Difficulty.expert es he
  have hrank : ∀ q ∈ l, difficultyRank q.difficulty ≤ 2 := by
    intro q hq
    rw [hl] at hq
    rcases List.mem_append.mp hq with hq' | hq'
    · rcases List.mem_append.mp hq' with hq'' | hq''
      · rw [rank_of_mem_tierPool (hbmem q hq'')]; exact Nat.zero_le 2
      · rw [rank_of_mem_tierPool (hmmem q hq'')]; decide
    · rw [rank_of_mem_tierPool (hemem q hq')]; decide
  have hlen : l.length = 20 := by
    rw [hl]
    simp only [List.length_append]
    rw [hblen, hmlen, helen]
    rfl
  refine ⟨by rw [hlen]; rfl, hlen, ?_, bs, ms, es, hl, hblen, hmlen, helen, hbmem, hmmem, hemem⟩
  rw [hl]
  unfold List.Sorted
  rw [List.pairwise_append, List.pairwise_append]
  refine ⟨⟨?_, ?_, ?_⟩, ?_, ?_⟩
  · exact List.pairwise_of_forall_mem_list (fun a ha b hb' => by
      rw [rank_of_mem_tierPool (hbmem a ha), rank_of_mem_tierPool (hbmem b hb')])
  · exact List.pairwise_of_forall_mem_list (fun a ha b hb' => by
      rw [rank_of_mem_tierPool (hmmem a ha), rank_of_mem_tierPool (hmmem b hb')])
  · intro a ha b hb'
    rw [rank_of_mem_tierPool (hbmem a ha), rank_of_mem_tierPool (hmmem b hb')]
    decide
  · exact List.pairwise_of_forall_mem_list (fun a ha b hb' => by
      rw [rank_of_mem_tierPool (hemem a ha), rank_of_mem_tierPool (hemem b hb')])
  · intro a ha b hb'
    rcases List.mem_append.mp ha with ha' | ha'
    · rw [rank_of_mem_tierPool (hbmem a ha'), rank_of_mem_tierPool (hemem b hb')]
      decide
    · rw [rank_of_mem_tierPool (hmmem a ha'), rank_of_mem_tierPool (hemem b hb')]
      decide

/-- C2: session construction fails with a fatal error whenever any tier's
pool does not split into exactly the required image/typeface counts, and it
succeeds only when all three tiers match exactly. -/
theorem C2_pool_validation (r : Nat → Nat → Nat) (questions : List Question) :
    (∀ level, ¬ compositionMatches questions level →
      ∃ msg, getRandomizedQuestions r questions = Except.error msg) ∧
    (∀ l, getRandomizedQuestions r questions = Except.ok l →
      poolCompositionOK questions) := by
  have hok : ∀ l, getRandomizedQuestions r questions = Except.ok l →
      poolCompositionOK questions := by
    intro l h
    obtain ⟨bs, ms, es, _, hb, hm, he⟩ := getRandomizedQuestions_ok_decomp r questions l h
    exact ⟨(selectForLevel_ok r 0 questions Difficulty.beginner bs hb).2.1,
      (selectForLevel_ok r 3 questions Difficulty.mid ms hm).2.1,
      (selectForLevel_ok r 6 questions Difficulty.expert es he).2.1⟩
  refine ⟨?_, hok⟩
  intro level hbad
  cases hres : getRandomizedQuestions r questions with
  | error msg => exact ⟨msg, rfl⟩
  | ok l => exact absurd (poolCompositionOK_level (hok l hres) level) hbad

/-- A successful per-level selection of a duplicate-free catalog is
duplicate-free. -/
theorem selectForLevel_nodup (r : Nat → Nat → Nat) (base : Nat)
    (questions : List Question) (level : Difficulty) (sel : List Question)
    (hnd : questions.Nodup)
    (h : selectForLevel r base questions level = Except.ok sel) : sel.Nodup := by
  simp only [selectForLevel] at h
  cases hv : validatePoolComposition level
      ((tierPool questions level).filter (fun q => q.type == QType.image))
      ((tierPool questions level).filter (fun q => q.type == QType.typeface)) with
  | error e => rw [hv] at h; cases h
  | ok u =>
    cases u
    rw [hv] at h
    set imageQuestions :=
      (tierPool questions level).filter (fun q => q.type == QType.image) with himg
    set typefaceQuestions :=
      (tierPool questions level).filter (fun q => q.type == QType.typeface) with htf
    set allShuffled := shuffleArray (r (base + 2))
      (shuffleArray (r base) imageQuestions ++
        shuffleArray (r (base + 1)) typefaceQuestions) with hall
    by_cases hlen : allShuffled.length < QUESTIONS_PER_LEVEL level
    · rw [if_pos hlen] at h; cases h
    · rw [if_neg hlen] at h
      have hsel : sel = allShuffled.take (QUESTIONS_PER_LEVEL level) := by
        cases h; rfl
      have hpool : (tierPool questions level).Nodup := hnd.filter _
      have hdisj : (shuffleArray (r base) imageQuestions).Disjoint
          (shuffleArray (r (base + 1)) typefaceQuestions) := by
        intro q hq1 hq2
        have h1 := (List.mem_filter.mp (shuffleArray_mem.mp hq1)).2
        have h2 := (List.mem_filter.mp (shuffleArray_mem.mp hq2)).2
        simp only [beq_iff_eq] at h1 h2
        rw [h1] at h2
        cases h2
      have happ : (shuffleArray (r base) imageQuestions ++
          shuffleArray (r (base + 1)) typefaceQuestions).Nodup :=
        List.Nodup.append (shuffleArray_nodup (hpool.filter _))
          (shuffleArray_nodup (hpool.filter _)) hdisj
      have hshuf : allShuffled.Nodup := shuffleArray_nodup happ
      rw [hsel]
      exact List.Nodup.sublist (List.take_sublist _ _) hshuf

/-- C10: the shuffle never drops, duplicates, or invents elements (it is a
permutation; the input itself is a value and cannot be mutated in this pure
model, matching the source's `[...array]` copy); hence a session built from a
duplicate-free catalog has no duplicated entries and contains only catalog
questions. -/
theorem C10_shuffle_permutation :
    (∀ (α : Type) (rnd : Nat → Nat) (xs : List α),
      List.Perm (shuffleArray rnd xs) xs ∧
      (shuffleArray rnd xs).length = xs.length ∧
      (↑(shuffleArray rnd xs) : Multiset α) = (↑xs : Multiset α)) ∧
    (∀ (r : Nat → Nat → Nat) (questions l : List Question),
      questions.Nodup → getRandomizedQuestions r questions = Except.ok l →
      l.Nodup ∧ ∀ q ∈ l, q ∈ questions) := by
  constructor
  · intro α rnd xs
    exact ⟨shuffleArray_perm rnd xs, shuffleArray_length rnd xs,
      Multiset.coe_eq_coe.mpr (shuffleArray_perm rnd xs)⟩
  · intro r questions l hnd h
    obtain ⟨bs, ms, es, hl, hb, hm, he⟩ := getRandomizedQuestions_ok_decomp r questions l h
    obtain ⟨_, _, hbmem⟩ := selectForLevel_ok r 0 questions Difficulty.beginner bs hb
    obtain ⟨_, _, hmmem⟩ := selectForLevel_ok r 3 questions Difficulty.mid ms hm
    obtain ⟨_, _, hemem⟩ := selectForLevel_ok r 6 questions Difficulty.expert es he
    have hbnd := selectForLevel_nodup r 0 questions Difficulty.beginner bs hnd hb
    have hmnd := selectForLevel_nodup r 3 questions Difficulty.mid ms hnd hm
    have hend := selectForLevel_nodup r 6 questions Difficulty.expert es hnd he
    have hdisj : ∀ (l₁ l₂ : List Question) (lv₁ lv₂ : Difficulty), lv₁ ≠ lv₂ →
        (∀ q ∈ l₁, q ∈ tierPool questions lv₁) →
        (∀ q ∈ l₂, q ∈ tierPool questions lv₂) → l₁.Disjoint l₂ := by
      intro l₁ l₂ lv₁ lv₂ hne m₁ m₂ q hq1 hq2
      have e1 := (mem_tierPool (m₁ q hq1)).2
      have e2 := (mem_tierPool (m₂ q hq2)).2
      rw [e1] at e2
      exact hne (Option.some_injective _ e2)
    constructor
    · rw [hl, List.append_assoc, List.nodup_append]
      refine ⟨hbnd, ?_, ?_⟩
      · rw [List.nodup_append]
        exact ⟨hmnd, hend, hdisj ms es Difficulty.mid Difficulty.expert (by decide) hmmem hemem⟩
      · intro q hq hq'
        rcases List.mem_append.mp hq' with hq'' | hq''
        · exact hdisj bs ms Difficulty.beginner Difficulty.mid (by decide) hbmem hmmem hq hq''
        · exact hdisj bs es Difficulty.beginner Difficulty.expert (by decide) hbmem hemem hq hq''
    · intro q hq
      rw [hl] at hq
      rcases List.mem_append.mp hq with hq' | hq'
      · rcases List.mem_append.mp hq' with hq'' | hq''
        · exact (mem_tierPool (hbmem q hq'')).1
        · exact (mem_tierPool (hmmem q hq'')).1
      · exact (mem_tierPool (hemem q hq')).1

/-! ## Concrete catalog for witnesses -/

/-- A concrete, duplicate-free catalog meeting the required pool
composition (15+5 beginner, 12+8 mid, 13+7 expert). -/
def mkDemoQuestion (id : Nat) (difficulty : Difficulty) (type : QType) : Question :=
  { id := id, difficulty := some difficulty, type := type,
    prompt := "p", optionA := "a", optionB := "b", explanation := "e" }

def demoCatalog : List Question :=
  ((List.range 15).map (fun i => mkDemoQuestion i Difficulty.beginner QType.image)) ++
  ((List.range 5).map (fun i => mkDemoQuestion (20 + i) Difficulty.beginner QType.typeface)) ++
  ((List.range 12).map (fun i => mkDemoQuestion (40 + i) Difficulty.mid QType.image)) ++
  ((List.range 8).map (fun i => mkDemoQuestion (60 + i) Difficulty.mid QType.typeface)) ++
  ((List.range 13).map (fun i => mkDemoQuestion (80 + i) Difficulty.expert QType.image)) ++
  ((List.range 7).map (fun i => mkDemoQuestion (100 + i) Difficulty.expert QType.typeface))

/-- A catalog violating the beginner composition (14 image instead of 15). -/
def demoBadCatalog : List Question := demoCatalog.drop 1

/-- A fixed random source (always draws 0). -/
def rZero : Nat → Nat → Nat := fun _ _ => 0

/-- The session the selector builds from `demoCatalog` under `rZero`. -/
def demoSession : List Question :=
  match getRandomizedQuestions rZero demoCatalog with
  | Except.ok l => l
  | Except.error _ => []

theorem C1_witness : poolCompositionOK demoCatalog ∧ demoSession.length = 20 :=
  ⟨by decide, (C1_session_shape rZero demoCatalog demoSession (by decide) rfl).2.1⟩

theorem C2_witness :
    ¬ compositionMatches demoBadCatalog Difficulty.beginner ∧
    (∃ msg, getRandomizedQuestions rZero demoBadCatalog = Except.error msg) :=
  ⟨by decide, (C2_pool_validation rZero demoBadCatalog).1 Difficulty.beginner (by decide)⟩

theorem C10_witness :
    demoCatalog.Nodup ∧ demoSession.Nodup ∧ ∀ q ∈ demoSession, q ∈ demoCatalog := by
  have h := C10_shuffle_permutation.2 rZero demoCatalog demoSession (by decide) rfl
  exact ⟨by decide, h.1, h.2⟩

/-! ## Option Randomizer -/

/-- The two rendered positions ('left' | 'right'). -/
inductive Side where
  | left
  | right
  deriving DecidableEq, Repr

/-- One entry of the two-element array built inside `shuffleOptions`:
`{ value, isCorrect }`. -/
structure OptionSlot where
  value : String
  isCorrect : Bool
  deriving DecidableEq, Repr

/-- Result of `shuffleOptions`. -/
structure ShuffledOptions where
  leftOption : String
  rightOption : String
  correctAnswer : Side
  deriving DecidableEq, Repr

/-- `shuffleOptions`: put `optionA` (always the correct one) and `optionB`
into a two-element array, shuffle it with the same Fisher–Yates primitive,
and record which rendered side holds the correct option.  The `getD`
defaults are never used: the shuffle of a two-element list has two
elements. -/
def shuffleOptions (rnd : Nat → Nat) (optionA optionB : String) : ShuffledOptions :=
  let options : List OptionSlot :=
    [{ value := optionA, isCorrect := true }, { value := optionB, isCorrect := false }]
  let shuffled := shuffleArray rnd options
  let slot0 := shuffled.getD 0 { value := optionA, isCorrect := true }
  let slot1 := shuffled.getD 1 { value := optionB, isCorrect := false }
  let leftIsCorrect := slot0.isCorrect
  { leftOption := slot0.value, rightOption := slot1.value,
    correctAnswer := if leftIsCorrect then Side.left else Side.right }

/-- On a two-element list the Fisher–Yates loop is a single draw
`j = rnd 1 % 2`: `j = 0` swaps, `j = 1` leaves the list unchanged. -/
theorem shuffleArray_pair (rnd : Nat → Nat) (a b : α) :
    shuffleArray rnd [a, b] = if rnd 1 % 2 = 0 then [b, a] else [a, b] := by
  rcases Nat.mod_two_eq_zero_or_one (rnd 1) with h | h <;>
    simp [shuffleArray, shuffleLoop, listSwap, h]

/-- C5: the option randomizer returns exactly one of the two placements of
`{optionA, optionB}`, its `correctAnswer` names the side where `optionA`
(the correct option) landed, and over the two equally likely draws of the
underlying uniform primitive each placement occurs exactly once (a fair coin
flip). -/
theorem C5_option_randomizer :
    (∀ (rnd : Nat → Nat) (optionA optionB : String),
      shuffleOptions rnd optionA optionB =
          { leftOption := optionA, rightOption := optionB, correctAnswer := Side.left } ∨
      shuffleOptions rnd optionA optionB =
          { leftOption := optionB, rightOption := optionA, correctAnswer := Side.right }) ∧
    (∀ (optionA optionB : String),
      (Finset.univ.filter (fun j : Fin 2 =>
        (shuffleOptions (fun _ => (j : Nat)) optionA optionB).correctAnswer
          = Side.left)).card = 1 ∧
      (Finset.univ.filter (fun j : Fin 2 =>
        (shuffleOptions (fun _ => (j : Nat)) optionA optionB).correctAnswer
          = Side.right)).card = 1) := by
  have hcompute : ∀ (rnd : Nat → Nat) (optionA optionB : String),
      shuffleOptions rnd optionA optionB =
        if rnd 1 % 2 = 0 then
          { leftOption := optionB, rightOption := optionA, correctAnswer := Side.right }
        else
          { leftOption := optionA, rightOption := optionB, correctAnswer := Side.left } := by
    intro rnd optionA optionB
    rcases Nat.mod_two_eq_zero_or_one (rnd 1) with h | h <;>
      simp [shuffleOptions, shuffleArray_pair, h]
  constructor
  · intro rnd optionA optionB
    rcases Nat.mod_two_eq_zero_or_one (rnd 1) with h | h
    · right; rw [hcompute, if_pos h]
    · left; rw [hcompute, if_neg (by rw [h]; exact one_ne_zero)]
  · intro optionA optionB
    have hside : ∀ j : Fin 2,
        (shuffleOptions (fun _ => (j : Nat)) optionA optionB).correctAnswer =
          if j = 1 then Side.left else Side.right := by
      intro j
      fin_cases j
      · rw [hcompute]; rfl
      · rw [hcompute]; rfl
    constructor
    · have hset : (Finset.univ.filter (fun j : Fin 2 =>
          (shuffleOptions (fun _ => (j : Nat)) optionA optionB).correctAnswer
            = Side.left)) = {1} := by
        ext j
        simp only [Finset.mem_filter, Finset.mem_univ, true_and, Finset.mem_singleton]
        rw [hside j]
        fin_cases j <;> simp
      rw [hset]
      rfl
    · have hset : (Finset.univ.filter (fun j : Fin 2 =>
          (shuffleOptions (fun _ => (j : Nat)) optionA optionB).correctAnswer
            = Side.right)) = {0} := by
        ext j
        simp only [Finset.mem_filter, Finset.mem_univ, true_and, Finset.mem_singleton]
        rw [hside j]
        fin_cases j <;> simp
      rw [hset]
      rfl

/-! ## Session State Machine (the quiz component's state and handlers) -/

/-- The component state relevant to the session flow.  `answeredQuestions`
models the `Set<number>` of already-answered question indices. -/
structure QuizComponentState where
  sessionQuestions : List Question
  currentQuestionIndex : Nat
  selectedAnswer : Option Side
  showExplanation : Bool
  showLevelCompleteModal : Bool
  completedLevel : Option Difficulty
  coins : Nat
  answeredQuestions : List Nat
  deriving DecidableEq, Repr

/-- State right after mount: index 0, no selection, no coins, empty
answered-set, instruction flow elided. -/
def initialState (qs : List Question) : QuizComponentState :=
  { sessionQuestions := qs, currentQuestionIndex := 0, selectedAnswer := none,
    showExplanation := false, showLevelCompleteModal := false, completedLevel := none,
    coins := 0, answeredQuestions := [] }

/-- `new Set(prev).add(i)`. -/
def addAnswered (answered : List Nat) (i : Nat) : List Nat :=
  if i ∈ answered then answered else i :: answered

/-- `handleSelect(side)`.  The guard `!showExplanation && currentQuestion &&
shuffledOptions` holds exactly when no answer is showing and the current
index is in range.  `correctAnswer` is the side computed by
`shuffleOptions` for the current question.  The final branch is the
last-question auto-completion (the `setTimeout` that opens the expert
completion modal, taken as immediate). -/
def handleSelect (correctAnswer : Side) (side : Side) (s : QuizComponentState) :
    QuizComponentState :=
  if s.showExplanation = false ∧ s.currentQuestionIndex < s.sessionQuestions.length then
    let s1 := { s with selectedAnswer := some side, showExplanation := true }
    let s2 :=
      if side = correctAnswer ∧ s.currentQuestionIndex ∉ s.answeredQuestions then
        { s1 with
          answeredQuestions := addAnswered s.answeredQuestions s.currentQuestionIndex,
          coins := s.coins + 100 }
      else if ¬(side = correctAnswer) ∧ s.currentQuestionIndex ∉ s.answeredQuestions then
        { s1 with
          answeredQuestions := addAnswered s.answeredQuestions s.currentQuestionIndex }
      else s1
    if s.currentQuestionIndex = s.sessionQuestions.length - 1 then
      { s2 with completedLevel := some Difficulty.expert, showLevelCompleteModal := true }
    else s2
  else s

/-- `handleNext`: checkpoint modals after indices 4 and 11 and after the
last question; otherwise advance. -/
def handleNext (s : QuizComponentState) : QuizComponentState :=
  if s.currentQuestionIndex = 4 then
    { s with completedLevel := some Difficulty.beginner, showLevelCompleteModal := true }
  else if s.currentQuestionIndex = 11 then
    { s with completedLevel := some Difficulty.mid, showLevelCompleteModal := true }
  else if s.currentQuestionIndex = s.sessionQuestions.length - 1 then
    { s with completedLevel := some Difficulty.expert, showLevelCompleteModal := true }
  else
    { s with currentQuestionIndex := s.currentQuestionIndex + 1,
             selectedAnswer := none, showExplanation := false }

/-- `handleProceedToNextLevel`: dismiss the modal; on the last question
reset everything, otherwise advance to the next question. -/
def handleProceedToNextLevel (s : QuizComponentState) : QuizComponentState :=
  if s.currentQuestionIndex = s.sessionQuestions.length - 1 then
    { s with showLevelCompleteModal := false, completedLevel := none,
             currentQuestionIndex := 0, coins := 0, answeredQuestions := [],
             selectedAnswer := none, showExplanation := false }
  else
    { s with showLevelCompleteModal := false, completedLevel := none,
             currentQuestionIndex := s.currentQuestionIndex + 1,
             selectedAnswer := none, showExplanation := false }

/-- `handleStartOver`: reset index, coins, answered-set, selection and
modals.  Note that `sessionQuestions` has no setter in the component
(`const [sessionQuestions] = useState(() => getRandomizedQuestions())`),
so the question list cannot change here. -/
def handleStartOver (s : QuizComponentState) : QuizComponentState :=
  { s with showLevelCompleteModal := false, completedLevel := none,
           currentQuestionIndex := 0, coins := 0, answeredQuestions := [],
           selectedAnswer := none, showExplanation := false }

/-- C8 (amended): "start over" resets the index to 0, the coin total to 0
and the answered-set to empty (clearing selection, explanation and modal
state), but it does **not** re-invoke the session selector: the question
list of the previous session is carried over unchanged. -/
theorem C8_start_over (s : QuizComponentState) :
    (handleStartOver s).currentQuestionIndex = 0 ∧
    (handleStartOver s).coins = 0 ∧
    (handleStartOver s).answeredQuestions = [] ∧
    (handleStartOver s).selectedAnswer = none ∧
    (handleStartOver s).showExplanation = false ∧
    (handleStartOver s).showLevelCompleteModal = false ∧
    (handleStartOver s).completedLevel = none ∧
    (handleStartOver s).sessionQuestions = s.sessionQuestions :=
  ⟨rfl, rfl, rfl, rfl, rfl, rfl, rfl, rfl⟩

/-- A concrete completed-session state over the `demoSession` question list. -/
def demoCompletedState : QuizComponentState :=
  { sessionQuestions := demoSession, currentQuestionIndex := 19,
    selectedAnswer := some Side.left, showExplanation := true,
    showLevelCompleteModal := true, completedLevel := some Difficulty.expert,
    coins := 2000, answeredQuestions := (List.range 20).reverse }

/-- C8 counterexample: at this concrete completed state, "start over" keeps
exactly the previous session's (non-empty) question list — no fresh
randomized list is produced, contradicting the claim that the Session
Selector is re-invoked. -/
theorem C8_counterexample :
    (handleStartOver demoCompletedState).sessionQuestions
        = demoCompletedState.sessionQuestions ∧
    demoCompletedState.sessionQuestions ≠ [] := by
  refine ⟨rfl, ?_⟩
  intro h
  have : demoSession.length = 0 := by rw [show demoSession = [] from h]; rfl
  rw [show demoSession.length = 20 from by decide] at this
  cases this

/-! ## Score Ledger: crediting behaviour and a full-session run -/

/-- Number of correctly chosen answers among the first `n` questions, when
question `i`'s correct side is `corr i` and the user picks `chosen i`. -/
def countCorrect (corr chosen : Nat → Side) (n : Nat) : Nat :=
  ((List.range n).filter (fun i => decide (chosen i = corr i))).length

theorem countCorrect_succ (corr chosen : Nat → Side) (k : Nat) :
    countCorrect corr chosen (k + 1) =
      countCorrect corr chosen k + (if chosen k = corr k then 1 else 0) := by
  unfold countCorrect
  rw [List.range_succ, List.filter_append, List.length_append]
  congr 1
  by_cases h : chosen k = corr k
  · simp [h]
  · simp [h]

/-- Answer question `i` and, unless it was the last question, click through
to the next question (dismissing a checkpoint modal when one appears). -/
def stepQuestion (corr chosen : Nat → Side) (i : Nat) (s : QuizComponentState) :
    QuizComponentState :=
  let s1 := handleSelect (corr i) (chosen i) s
  if i + 1 < s.sessionQuestions.length then
    let s2 := handleNext s1
    if s2.showLevelCompleteModal then handleProceedToNextLevel s2 else s2
  else s1

/-- The state after answering the first `k` questions of a session. -/
def runPrefix (corr chosen : Nat → Side) (qs : List Question) (k : Nat) :
    QuizComponentState :=
  (List.range k).foldl (fun s i => stepQuestion corr chosen i s) (initialState qs)

/-- A full run through the session, answering every question in order. -/
def runSession (corr chosen : Nat → Side) (qs : List Question) : QuizComponentState :=
  runPrefix corr chosen qs qs.length

theorem runPrefix_succ (corr chosen : Nat → Side) (qs : List Question) (k : Nat) :
    runPrefix corr chosen qs (k + 1) =
      stepQuestion corr chosen k (runPrefix corr chosen qs k) := by
  unfold runPrefix
  rw [List.range_succ, List.foldl_append]
  rfl

/-- The loop invariant state: about to answer question `k`, with the first
`k` questions answered and credited. -/
def midRunState (corr chosen : Nat → Side) (qs : List Question) (k : Nat) :
    QuizComponentState :=
  { sessionQuestions := qs, currentQuestionIndex := k, selectedAnswer := none,
    showExplanation := false, showLevelCompleteModal := false, completedLevel := none,
    coins := 100 * countCorrect corr chosen k,
    answeredQuestions := (List.range k).reverse }

theorem addAnswered_range (k : Nat) :
    addAnswered (List.range k).reverse k = (List.range (k + 1)).reverse := by
  unfold addAnswered
  rw [if_neg (by simp), List.range_succ, List.reverse_append]
  rfl

theorem handleSelect_midRunState (corr chosen : Nat → Side) (qs : List Question)
    (k : Nat) (hk : k < qs.length) :
    handleSelect (corr k) (chosen k) (midRunState corr chosen qs k) =
      (if k = qs.length - 1 then
        { sessionQuestions := qs, currentQuestionIndex := k,
          selectedAnswer := some (chosen k), showExplanation := true,
          showLevelCompleteModal := true, completedLevel := some Difficulty.expert,
          coins := 100 * countCorrect corr chosen (k + 1),
          answeredQuestions := (List.range (k + 1)).reverse }
      else
        { sessionQuestions := qs, currentQuestionIndex := k,
          selectedAnswer := some (chosen k), showExplanation := true,
          showLevelCompleteModal := false, completedLevel := none,
          coins := 100 * countCorrect corr chosen (k + 1),
          answeredQuestions := (List.range (k + 1)).reverse }) := by
  have hmem : k ∉ (List.range k).reverse := by simp
  simp only [handleSelect, midRunState]
  rw [if_pos (show True ∧ k < qs.length from ⟨trivial, hk⟩)]
  by_cases hcc : chosen k = corr k
  · rw [if_pos (show chosen k = corr k ∧ k ∉ (List.range k).reverse from ⟨hcc, hmem⟩)]
    rw [addAnswered_range]
    by_cases hlast : k = qs.length - 1
    · rw [if_pos hlast, if_pos hlast]
      simp [countCorrect_succ, hcc, Nat.mul_add]
    · rw [if_neg hlast, if_neg hlast]
      simp [countCorrect_succ, hcc, Nat.mul_add]
  · rw [if_neg (show ¬(chosen k = corr k ∧ k ∉ (List.range k).reverse) from fun h => hcc h.1)]
    rw [if_pos (show ¬(chosen k = corr k) ∧ k ∉ (List.range k).reverse from ⟨hcc, hmem⟩)]
    rw [addAnswered_range]
    by_cases hlast : k = qs.length - 1
    · rw [if_pos hlast, if_pos hlast]
      simp [countCorrect_succ, hcc, Nat.mul_add]
    · rw [if_neg hlast, if_neg hlast]
      simp [countCorrect_succ, hcc, Nat.mul_add]

theorem stepQuestion_midRunState (corr chosen : Nat → Side) (qs : List Question)
    (k : Nat) (hk : k + 1 < qs.length) :
    stepQuestion corr chosen k (midRunState corr chosen qs k) =
      midRunState corr chosen qs (k + 1) := by
  have hlast : k ≠ qs.length - 1 := by omega
  have hsel := handleSelect_midRunState corr chosen qs k (by omega)
  rw [if_neg hlast] at hsel
  simp only [stepQuestion, midRunState] at hsel ⊢
  rw [hsel, if_pos hk]
  by_cases h4 : k = 4
  · have hne4 : ¬((4 : Nat) = qs.length - 1) := by omega
    simp [handleNext, handleProceedToNextLevel, h4, hne4, midRunState]
  · by_cases h11 : k = 11
    · have hne11 : ¬((11 : Nat) = qs.length - 1) := by omega
      simp [handleNext, handleProceedToNextLevel, h11, hne11, midRunState]
    · simp [handleNext, handleProceedToNextLevel, h4, h11, hlast, midRunState]

theorem stepQuestion_last_coins (corr chosen : Nat → Side) (qs : List Question)
    (m : Nat) (hm : m + 1 = qs.length) :
    (stepQuestion corr chosen m (midRunState corr chosen qs m)).coins =
      100 * countCorrect corr chosen (m + 1) := by
  have hsel := handleSelect_midRunState corr chosen qs m (by omega)
  rw [if_pos (show m = qs.length - 1 by omega)] at hsel
  simp only [stepQuestion, midRunState] at hsel ⊢
  rw [if_neg (show ¬(m + 1 < qs.length) by omega), hsel]

theorem runPrefix_midRunState (corr chosen : Nat → Side) (qs : List Question) :
    ∀ k, k < qs.length → runPrefix corr chosen qs k = midRunState corr chosen qs k := by
  intro k
  induction k with
  | zero => intro _; rfl
  | succ k ih =>
    intro h
    rw [runPrefix_succ, ih (by omega)]
    exact stepQuestion_midRunState corr chosen qs k h

/-- Final coin total of a full run: 100 per correctly answered question. -/
theorem runSession_coins (corr chosen : Nat → Side) (qs : List Question) :
    (runSession corr chosen qs).coins = 100 * countCorrect corr chosen qs.length := by
  unfold runSession
  cases hn : qs.length with
  | zero => rfl
  | succ m =>
    rw [runPrefix_succ, runPrefix_midRunState corr chosen qs m (by omega)]
    have := stepQuestion_last_coins corr chosen qs m hn.symm
    rw [this]

/-- Coin delta of a single answer event: +100 exactly on a first-time
correct answer of an in-range question, otherwise unchanged. -/
theorem handleSelect_coins (correctAnswer side : Side) (s : QuizComponentState) :
    (handleSelect correctAnswer side s).coins =
      if s.showExplanation = false ∧ s.currentQuestionIndex < s.sessionQuestions.length ∧
          side = correctAnswer ∧ s.currentQuestionIndex ∉ s.answeredQuestions
      then s.coins + 100 else s.coins := by
  simp only [handleSelect]
  by_cases h1 : s.showExplanation = false ∧
      s.currentQuestionIndex < s.sessionQuestions.length
  · rw [if_pos h1]
    by_cases h2 : side = correctAnswer ∧ s.currentQuestionIndex ∉ s.answeredQuestions
    · have hcond : s.showExplanation = false ∧
          s.currentQuestionIndex < s.sessionQuestions.length ∧
          side = correctAnswer ∧ s.currentQuestionIndex ∉ s.answeredQuestions :=
        ⟨h1.1, h1.2, h2.1, h2.2⟩
      rw [if_pos h2, if_pos hcond]
      by_cases h3 : s.currentQuestionIndex = s.sessionQuestions.length - 1
      · rw [if_pos h3]
      · rw [if_neg h3]
    · have hcond : ¬(s.showExplanation = false ∧
          s.currentQuestionIndex < s.sessionQuestions.length ∧
          side = correctAnswer ∧ s.currentQuestionIndex ∉ s.answeredQuestions) :=
        fun h => h2 ⟨h.2.2.1, h.2.2.2⟩
      rw [if_neg h2, if_neg hcond]
      by_cases h4 : ¬(side = correctAnswer) ∧ s.currentQuestionIndex ∉ s.answeredQuestions
      · rw [if_pos h4]
        by_cases h3 : s.currentQuestionIndex = s.sessionQuestions.length - 1
        · rw [if_pos h3]
        · rw [if_neg h3]
      · rw [if_neg h4]
        by_cases h3 : s.currentQuestionIndex = s.sessionQuestions.length - 1
        · rw [if_pos h3]
        · rw [if_neg h3]
  · have hcond : ¬(s.showExplanation = false ∧
        s.currentQuestionIndex < s.sessionQuestions.length ∧
        side = correctAnswer ∧ s.currentQuestionIndex ∉ s.answeredQuestions) :=
      fun h => h1 ⟨h.1, h.2.1⟩
    rw [if_neg h1, if_neg hcond]

/-- C3: the ledger credits each question index at most once (a second answer
at an already-answered index never changes the total), each answer event
changes the total by exactly +100 on a first-time correct answer and leaves
it unchanged otherwise (hence the total is monotone non-decreasing across
answer events), and a full session answering `N` questions correctly ends
with exactly `100 × N` coins. -/
theorem C3_score_ledger :
    (∀ (correctAnswer side : Side) (s : QuizComponentState),
      s.currentQuestionIndex ∈ s.answeredQuestions →
        (handleSelect correctAnswer side s).coins = s.coins) ∧
    (∀ (correctAnswer side : Side) (s : QuizComponentState),
      (handleSelect correctAnswer side s).coins =
        if s.showExplanation = false ∧ s.currentQuestionIndex < s.sessionQuestions.length ∧
            side = correctAnswer ∧ s.currentQuestionIndex ∉ s.answeredQuestions
        then s.coins + 100 else s.coins) ∧
    (∀ (correctAnswer side : Side) (s : QuizComponentState),
      s.coins ≤ (handleSelect correctAnswer side s).coins) ∧
    (∀ (corr chosen : Nat → Side) (qs : List Question),
      (runSession corr chosen qs).coins = 100 * countCorrect corr chosen qs.length) := by
  refine ⟨?_, handleSelect_coins, ?_, runSession_coins⟩
  · intro correctAnswer side s hmem
    rw [handleSelect_coins]
    rw [if_neg (fun h => h.2.2.2 hmem)]
  · intro correctAnswer side s
    rw [handleSelect_coins]
    by_cases h : s.showExplanation = false ∧
        s.currentQuestionIndex < s.sessionQuestions.length ∧
        side = correctAnswer ∧ s.currentQuestionIndex ∉ s.answeredQuestions
    · rw [if_pos h]; omega
    · rw [if_neg h]

/-- A state in which question index 3 has already been answered. -/
def demoAnsweredState : QuizComponentState :=
  { sessionQuestions := demoSession, currentQuestionIndex := 3,
    selectedAnswer := none, showExplanation := false,
    showLevelCompleteModal := false, completedLevel := none,
    coins := 300, answeredQuestions := [3, 2, 1, 0] }

theorem C3_witness :
    demoAnsweredState.currentQuestionIndex ∈ demoAnsweredState.answeredQuestions ∧
    (handleSelect Side.left Side.left demoAnsweredState).coins
        = demoAnsweredState.coins :=
  ⟨by decide, C3_score_ledger.1 Side.left Side.left demoAnsweredState (by decide)⟩

/-! ## Accuracy at SessionComplete -/

/-- `maxCoins = totalQuestions * 100`. -/
def maxCoins (totalQuestions : Nat) : Nat := totalQuestions * 100

/-- `accuracy = totalQuestions > 0 ? Math.round((coins / maxCoins) * 100) : 0`,
with the JavaScript number arithmetic idealized over ℚ (`Math.round` is
round-half-up, as is Mathlib's `round` on nonnegative rationals). -/
def accuracy (coins totalQuestions : Nat) : Int :=
  if 0 < totalQuestions then
    round ((coins : ℚ) / (maxCoins totalQuestions : ℚ) * 100)
  else 0

/-- Modelled from the spec: `accuracy = round(coins / (questionCount × 100) × 100)`. -/
def specAccuracy (coins totalQuestions : Nat) : Int :=
  round ((coins : ℚ) / ((totalQuestions : ℚ) * 100) * 100)

theorem countCorrect_self (corr : Nat → Side) (n : Nat) :
    countCorrect corr corr n = n := by
  simp [countCorrect]

/-- C6: for a completed session with `n > 0` questions and coin total `c`,
the displayed accuracy is the spec's `round(c / (n × 100) × 100)`; under the
ledger bound `c ≤ n × 100` it lies in `[0, 100]`; and a session in which
every question is answered correctly ends with `coins = n × 100` and
accuracy 100. -/
theorem C6_accuracy (n c : Nat) (hn : 0 < n) (hc : c ≤ n * 100) :
    accuracy c n = specAccuracy c n ∧
    0 ≤ accuracy c n ∧ accuracy c n ≤ 100 ∧
    accuracy (n * 100) n = 100 ∧
    ∀ (corr : Nat → Side) (qs : List Question), qs.length = n →
      (runSession corr corr qs).coins = n * 100 ∧
      accuracy (runSession corr corr qs).coins n = 100 := by
  have hden : (0 : ℚ) < (n : ℚ) * 100 := by positivity
  have hfull : accuracy (n * 100) n = 100 := by
    unfold accuracy maxCoins
    rw [if_pos hn]
    have hx : ((n * 100 : ℕ) : ℚ) / ((n * 100 : ℕ) : ℚ) * 100 = 100 := by
      rw [div_self (by positivity), one_mul]
    rw [hx, show ((100 : ℚ)) = ((100 : ℕ) : ℚ) by norm_num, round_natCast]
    norm_num
  refine ⟨?_, ?_, ?_, hfull, ?_⟩
  · unfold accuracy specAccuracy maxCoins
    rw [if_pos hn]
    norm_num
  · unfold accuracy maxCoins
    rw [if_pos hn, round_eq]
    apply Int.floor_nonneg.mpr
    positivity
  · unfold accuracy maxCoins
    rw [if_pos hn, round_eq]
    have hcast : ((n * 100 : ℕ) : ℚ) = (n : ℚ) * 100 := by push_cast; ring
    rw [hcast]
    have h1 : (c : ℚ) / ((n : ℚ) * 100) ≤ 1 := by
      rw [div_le_one hden]
      exact_mod_cast hc
    have hx : (c : ℚ) / ((n : ℚ) * 100) * 100 ≤ 100 := by
      calc (c : ℚ) / ((n : ℚ) * 100) * 100
          ≤ 1 * 100 := mul_le_mul_of_nonneg_right h1 (by norm_num)
        _ = 100 := one_mul 100
    have h2 : ⌊(c : ℚ) / ((n : ℚ) * 100) * 100 + 1 / 2⌋ < 101 := by
      rw [Int.floor_lt]
      push_cast
      linarith
    omega
  · intro corr qs hlen
    have hcoins : (runSession corr corr qs).coins = n * 100 := by
      rw [runSession_coins, hlen, countCorrect_self, Nat.mul_comm]
    exact ⟨hcoins, by rw [hcoins, hfull]⟩

theorem C6_witness :
    0 < 20 ∧ 1234 ≤ 20 * 100 ∧
    (accuracy 1234 20 = specAccuracy 1234 20 ∧
     0 ≤ accuracy 1234 20 ∧ accuracy 1234 20 ≤ 100 ∧
     accuracy (20 * 100) 20 = 100 ∧
     ∀ (corr : Nat → Side) (qs : List Question), qs.length = 20 →
       (runSession corr corr qs).coins = 20 * 100 ∧
       accuracy (runSession corr corr qs).coins 20 = 100) :=
  ⟨by decide, by decide, C6_accuracy 20 1234 (by decide) (by decide)⟩

/-! ## Leaderboard: ranking and POST validation -/

/-- A leaderboard entry (`id`/`timestamp` are server-generated). -/
structure LeaderboardEntry where
  id : String
  name : String
  score : Int
  accuracy : Int
  timeTaken : Int
  level : String
  timestamp : Int
  deriving DecidableEq, Repr

/-- "`a` may come before `b`" under the comparator used by `sortEntries`
(and reproduced by the database query's
`ORDER BY score DESC, accuracy DESC, time_taken ASC`): score descending,
then accuracy descending, then time-taken ascending. -/
def entryLE (a b : LeaderboardEntry) : Prop :=
  b.score < a.score ∨ (a.score = b.score ∧
    (b.accuracy < a.accuracy ∨ (a.accuracy = b.accuracy ∧ a.timeTaken ≤ b.timeTaken)))

instance : DecidableRel entryLE := fun a b => by
  unfold entryLE
  exact inferInstance

instance : IsTotal LeaderboardEntry entryLE := by
  constructor
  intro a b
  unfold entryLE
  rcases lt_trichotomy a.score b.score with h | h | h
  · right; left; exact h
  · rcases lt_trichotomy a.accuracy b.accuracy with h' | h' | h'
    · right; right; exact ⟨h.symm, Or.inl h'⟩
    · rcases le_total a.timeTaken b.timeTaken with h'' | h''
      · left; right; exact ⟨h, Or.inr ⟨h', h''⟩⟩
      · right; right; exact ⟨h.symm, Or.inr ⟨h'.symm, h''⟩⟩
    · left; right; exact ⟨h, Or.inl h'⟩
  · left; left; exact h

instance : IsTrans LeaderboardEntry entryLE := by
  constructor
  intro a b c hab hbc
  unfold entryLE at hab hbc ⊢
  rcases hab with h1 | ⟨e1, h1⟩
  · rcases hbc with h2 | ⟨e2, h2⟩
    · left; omega
    · left; omega
  · rcases hbc with h2 | ⟨e2, h2⟩
    · left; omega
    · right
      refine ⟨by omega, ?_⟩
      rcases h1 with h1 | ⟨f1, h1⟩
      · rcases h2 with h2 | ⟨f2, h2⟩
        · left; omega
        · left; omega
      · rcases h2 with h2 | ⟨f2, h2⟩
        · left; omega
        · right; exact ⟨by omega, by omega⟩

/-- `sortEntries`: stable sort of a copy of the entries under the
score-desc / accuracy-desc / time-asc comparator (JavaScript's
`[...entries].sort` is a stable comparator sort). -/
def sortEntries (entries : List LeaderboardEntry) : List LeaderboardEntry :=
  List.insertionSort entryLE entries

/-- The three entries of the spec's worked ranking example. -/
def exampleEntry1 : LeaderboardEntry :=
  { id := "1", name := "P1", score := 100, accuracy := 90, timeTaken := 30,
    level := "all", timestamp := 0 }

def exampleEntry2 : LeaderboardEntry :=
  { id := "2", name := "P2", score := 100, accuracy := 90, timeTaken := 20,
    level := "all", timestamp := 0 }

def exampleEntry3 : LeaderboardEntry :=
  { id := "3", name := "P3", score := 100, accuracy := 95, timeTaken := 50,
    level := "all", timestamp := 0 }

/-- C4: `sortEntries` permutes its input into an order that is sorted by
score descending, ties broken by accuracy descending, remaining ties by
time-taken ascending; on the spec's example it returns the third, then the
second, then the first entry. -/
theorem C4_leaderboard_order :
    (∀ entries, List.Perm (sortEntries entries) entries) ∧
    (∀ entries, List.Sorted entryLE (sortEntries entries)) ∧
    sortEntries [exampleEntry1, exampleEntry2, exampleEntry3] =
      [exampleEntry3, exampleEntry2, exampleEntry1] := by
  refine ⟨fun entries => List.perm_insertionSort entryLE entries,
    fun entries => List.sorted_insertionSort entryLE entries, ?_⟩
  decide

/-- The JSON body of a POST request; each field may be absent. -/
structure PostBody where
  name : Option String
  score : Option Int
  accuracy : Option Int
  timeTaken : Option Int
  level : Option String
  deriving DecidableEq, Repr

/-- Outcome of the POST validation: HTTP 400 with an error payload, or
HTTP 201 with the stored entry (id and timestamp server-generated). -/
inductive PostResult where
  | badRequest (error : String)
  | created
  deriving DecidableEq, Repr

/-- JavaScript falsiness of `entry.name`: absent or the empty string. -/
def strFalsy : Option String → Bool
  | none => true
  | some s => s == ""

/-- JavaScript falsiness of `entry.timeTaken`: absent or zero. -/
def numFalsy : Option Int → Bool
  | none => true
  | some v => v == 0

/-- The four accepted tier labels. -/
def validLevels : List String := ["beginner", "mid", "expert", "all"]

/-- `['beginner', 'mid', 'expert', 'all'].includes(entry.level)` (false when
the field is absent). -/
def levelOk : Option String → Bool
  | some l => validLevels.contains l
  | none => false

namespace FileLeaderboard

/-- POST branch of the file-backed handler (`pages/api/leaderboard.ts`):
`if (!entry.name || entry.score === undefined || entry.accuracy === undefined
|| !entry.timeTaken) return 400`; no tier validation at all. -/
def postHandler (entry : PostBody) : PostResult :=
  if strFalsy entry.name || entry.score == none || entry.accuracy == none ||
      numFalsy entry.timeTaken then
    PostResult.badRequest "Missing required fields"
  else
    PostResult.created

end FileLeaderboard

namespace DbLeaderboard

/-- POST branch of the database-backed handler: required-field check with
`entry.timeTaken === undefined`, then the tier-label check. -/
def postHandler (entry : PostBody) : PostResult :=
  if strFalsy entry.name || entry.score == none || entry.accuracy == none ||
      entry.timeTaken == none then
    PostResult.badRequest "Missing required fields"
  else if !(levelOk entry.level) then
    PostResult.badRequest "Invalid level"
  else
    PostResult.created

end DbLeaderboard

/-- C7 (amended): the database-backed handler accepts a POST (201) exactly
when the name is present and non-empty, score, accuracy and timeTaken are
present, and the tier label is one of the four accepted labels; the
file-backed handler checks only name (non-empty), score, accuracy and a
*truthy* timeTaken — it performs no tier validation. -/
theorem C7_post_validation :
    (∀ entry : PostBody,
      DbLeaderboard.postHandler entry = PostResult.created ↔
        (strFalsy entry.name = false ∧ entry.score ≠ none ∧ entry.accuracy ≠ none ∧
         entry.timeTaken ≠ none ∧ levelOk entry.level = true)) ∧
    (∀ entry : PostBody,
      FileLeaderboard.postHandler entry = PostResult.created ↔
        (strFalsy entry.name = false ∧ entry.score ≠ none ∧ entry.accuracy ≠ none ∧
         numFalsy entry.timeTaken = false)) := by
  constructor
  · intro entry
    unfold DbLeaderboard.postHandler
    by_cases h1 : (strFalsy entry.name || entry.score == none ||
        entry.accuracy == none || entry.timeTaken == none) = true
    · rw [if_pos h1]
      simp only [Bool.or_eq_true, beq_iff_eq] at h1
      constructor
      · intro h; cases h
      · rintro ⟨a, b, c, d, _⟩
        rcases h1 with (((h | h) | h) | h)
        · rw [a] at h; cases h
        · exact absurd h b
        · exact absurd h c
        · exact absurd h d
    · rw [if_neg h1]
      simp only [Bool.or_eq_true, beq_iff_eq, not_or] at h1
      obtain ⟨⟨⟨a, b⟩, c⟩, d⟩ := h1
      by_cases h2 : levelOk entry.level = true
      · rw [if_neg (by rw [h2]; intro h; cases h)]
        simp only [true_iff]
        exact ⟨Bool.eq_false_iff.mpr a, b, c, d, h2⟩
      · rw [if_pos (by rw [Bool.eq_false_iff.mpr h2]; rfl)]
        constructor
        · intro h; cases h
        · rintro ⟨_, _, _, _, e⟩
          exact absurd e h2
  · intro entry
    unfold FileLeaderboard.postHandler
    by_cases h1 : (strFalsy entry.name || entry.score == none ||
        entry.accuracy == none || numFalsy entry.timeTaken) = true
    · rw [if_pos h1]
      simp only [Bool.or_eq_true, beq_iff_eq] at h1
      constructor
      · intro h; cases h
      · rintro ⟨a, b, c, d⟩
        rcases h1 with (((h | h) | h) | h)
        · rw [a] at h; cases h
        · exact absurd h b
        · exact absurd h c
        · rw [d] at h; cases h
    · rw [if_neg h1]
      simp only [Bool.or_eq_true, beq_iff_eq, not_or] at h1
      obtain ⟨⟨⟨a, b⟩, c⟩, d⟩ := h1
      simp only [true_iff]
      exact ⟨Bool.eq_false_iff.mpr a, b, c, Bool.eq_false_iff.mpr d⟩

/-- A syntactically complete submission whose tier label is not one of the
four accepted labels. -/
def bogusTierBody : PostBody :=
  { name := some "Alice", score := some 100, accuracy := some 90,
    timeTaken := some 30, level := some "bogus" }

/-- C7 counterexample: the file-backed leaderboard endpoint accepts (201) a
submission whose tier label `"bogus"` is not among the four accepted labels,
instead of rejecting it with a client error as the claim requires. -/
theorem C7_counterexample :
    bogusTierBody.level = some "bogus" ∧
    levelOk bogusTierBody.level = false ∧
    FileLeaderboard.postHandler bogusTierBody = PostResult.created := by
  decide

/-- A fully valid submission. -/
def validBody : PostBody :=
  { name := some "Alice", score := some 1500, accuracy := some 75,
    timeTaken := some 240, level := some "all" }

theorem C7_witness :
    DbLeaderboard.postHandler validBody = PostResult.created ∧
    FileLeaderboard.postHandler validBody = PostResult.created :=
  ⟨(C7_post_validation.1 validBody).mpr (by decide),
   (C7_post_validation.2 validBody).mpr (by decide)⟩

/-- C9: a POST to the file-backed endpoint whose `timeTaken` is exactly 0,
with name, score and accuracy all present and valid, is rejected with
HTTP 400 "Missing required fields", because `!entry.timeTaken` is a
truthiness check rather than an `undefined` check. -/
theorem C9_zero_time_rejected (name : String) (score accuracy : Int)
    (level : Option String) (_hname : name ≠ "") :
    FileLeaderboard.postHandler
      { name := some name, score := some score, accuracy := some accuracy,
        timeTaken := some 0, level := level } =
      PostResult.badRequest "Missing required fields" := by
  simp [FileLeaderboard.postHandler, numFalsy]

theorem C9_witness :
    ("Zed" : String) ≠ "" ∧
    FileLeaderboard.postHandler
      { name := some "Zed", score := some 100, accuracy := some 90,
        timeTaken := some 0, level := some "all" } =
      PostResult.badRequest "Missing required fields" :=
  ⟨by decide, C9_zero_time_rejected "Zed" 100 90 (some "all") (by decide)⟩

end DesignGym
